import Mathlib

/-!
Verification of the scene-component layer excerpted from a component-based
game engine: the animation controller runtime, the per-tick event stream,
the IK post-process (`src/src/animation/animation_scene.cpp`) and the
ragdoll skeleton graph with its serialization
(`src/src/physics/physics_scene.cpp`), shallowly embedded in Lean.
-/

namespace Lumix

/-! ### Controller input declaration and runtime
(`AnimationSceneImpl` in `src/src/animation/animation_scene.cpp`). -/

/-- `Anim::InputDecl::Type`: the declared type of one input slot
(`EMPTY` marks an unused slot of the fixed `inputs` array). -/
inductive InputType
  | BOOL
  | INT
  | FLOAT
  | EMPTY
deriving DecidableEq, Repr

/-- Modelled from the spec: one slot of the `InputDecl` — "ordered list of
named, typed slots — BOOL/INT/FLOAT — each with a byte offset into a flat
input buffer" (the `Anim::InputDecl` type itself lives outside the excerpt).
The slot name is irrelevant to the claims and omitted. -/
structure InputSlot where
  type : InputType
  offset : Nat
deriving DecidableEq, Repr

/-- Modelled from the spec: `Anim::InputDecl` — `inputs` is the fixed slot
array (`decl.inputs`, whose capacity is `lengthOf(decl.inputs)`, here the
list length) and `size` is `getSize()`, the total byte size of the flat
input buffer. -/
structure InputDecl where
  inputs : List InputSlot
  size : Nat
deriving DecidableEq, Repr

/-- The behaviour of the polymorphic animation-graph node (`Anim::ComponentInstance`),
abstracted: `createInstance` is `resource->createInstance`, `enter` and `update`
are the node's virtual methods; `update` may return a different node instance. -/
structure NodeOps (N : Type) where
  createInstance : N
  enter : N → N
  update : N → N

/-- `AnimationSceneImpl::Controller`: the per-entity controller component record.
`ready` is `resource->isReady()`, `root` the owned root node (null ⇒ `none`),
`input` the raw input byte buffer, `animations` the resolved hash→clip map,
`default_set` the active set hash. The byte values are modelled as `Nat`. -/
structure Controller (N : Type) where
  ready : Bool
  decl : InputDecl
  root : Option N
  input : List Nat
  animations : List (Nat × Nat)
  default_set : Nat
deriving DecidableEq, Repr

/-- What `updateController` observes of the render scene:
`getModelInstanceComponent` validity and `lockPose` success. -/
structure RenderEnv where
  hasModelInstance : Bool
  poseAvailable : Bool
deriving DecidableEq, Repr

/-- `AnimationSceneImpl::initControllerRuntime` (animation_scene.cpp:849-880):
returns false when the resource is not ready or the input declaration has
size 0, and otherwise creates the root instance, zero-fills the input buffer,
binds the resolved animation set (`anims`, abstracted from the resource
content) and calls `enter` on the new root. -/
def initControllerRuntime {N : Type} (ops : NodeOps N) (anims : List (Nat × Nat))
    (c : Controller N) : Bool × Controller N :=
  if !c.ready then (false, c)
  else if c.decl.size = 0 then (false, c)
  else
    (true,
      { c with
        root := some (ops.enter ops.createInstance)
        input := List.replicate c.decl.size 0
        animations := anims })

/-- The tail of `AnimationSceneImpl::updateController` once a root exists
(animation_scene.cpp:922-953): `root = root->update(rc)` and, when the model
instance and pose are available, `root->fillPose(...)` on the stored (updated)
root. The second component is the node `fillPose` was invoked on (`none` when
the fill was skipped). -/
def runControllerRoot {N : Type} (ops : NodeOps N) (env : RenderEnv)
    (c : Controller N) : Controller N × Option N :=
  match c.root with
  | none => (c, none)
  | some r =>
    let r2 := ops.update r
    let c2 := { c with root := some r2 }
    if !env.hasModelInstance then (c2, none)
    else if !env.poseAvailable then (c2, none)
    else (c2, some r2)

/-- `AnimationSceneImpl::updateController` (animation_scene.cpp:911-953):
a not-ready resource destroys the root and returns (the input buffer is left
as is); a null root is lazily initialized via `initControllerRuntime`, and on
failure the tick does nothing; otherwise the root is updated and the pose
filled from the updated root. -/
def updateController {N : Type} (ops : NodeOps N) (anims : List (Nat × Nat))
    (env : RenderEnv) (c : Controller N) : Controller N × Option N :=
  if !c.ready then ({ c with root := none }, none)
  else
    match c.root with
    | none =>
      let r := initControllerRuntime ops anims c
      if !r.1 then (r.2, none) else runControllerRoot ops env r.2
    | some _ => runControllerRoot ops env c

/-- `AnimationSceneImpl::onControllerResourceChanged` (animation_scene.cpp:477-490),
restricted to one controller bound to the changed resource: when the runtime
exists and the new state is not READY, the root is destroyed and the set,
animations and input buffer are cleared. -/
def onControllerResourceChanged {N : Type} (newStateReady : Bool)
    (c : Controller N) : Controller N :=
  if c.root.isSome && !newStateReady then
    { c with root := none, default_set := 0, animations := [], input := [] }
  else c

/-- Little-endian bytes of a 32-bit value, as `memcpy` of a 4-byte scalar
into the blob lays them out. -/
def u32Bytes (n : Nat) : List Nat :=
  [n % 256, n / 256 % 256, n / 65536 % 256, n / 16777216 % 256]

/-- Overwrite `buf` starting at byte offset `off` with `bs`
(`*(T*)&controller.input[offset] = value`). -/
def storeBytes : List Nat → Nat → List Nat → List Nat
  | buf, _, [] => buf
  | buf, off, b :: bs => storeBytes (buf.set off b) (off + 1) bs

/-- The warnings the public input setters can log. -/
inductive LogMsg
  | inputBeforeReady
  | wrongType
deriving DecidableEq, Repr

/-- `AnimationSceneImpl::setControllerFloatInput` (animation_scene.cpp:299-317):
warns and no-ops with no root; silently no-ops on an out-of-range index
(`input_idx < 0 || input_idx >= lengthOf(decl.inputs)`); writes the 4-byte
value at the slot offset when the slot type is FLOAT, else warns. -/
def setControllerFloatInput {N : Type} (c : Controller N) (input_idx : Int)
    (value : Nat) : Except String (Controller N × List LogMsg) :=
  match c.root with
  | none => .ok (c, [.inputBeforeReady])
  | some _ =>
    if input_idx < 0 ∨ (c.decl.inputs.length : Int) ≤ input_idx then .ok (c, [])
    else
      match c.decl.inputs.get? input_idx.toNat with
      | none => .error "index out of range"
      | some slot =>
        if slot.type = .FLOAT then
          .ok ({ c with input := storeBytes c.input slot.offset (u32Bytes value) }, [])
        else .ok (c, [.wrongType])

/-- `AnimationSceneImpl::setControllerIntInput` (animation_scene.cpp:320-337):
warns and no-ops with no root, then indexes `decl.inputs[input_idx]` with NO
bounds check — an out-of-range index is an out-of-bounds access, modelled as
an error. -/
def setControllerIntInput {N : Type} (c : Controller N) (input_idx : Int)
    (value : Nat) : Except String (Controller N × List LogMsg) :=
  match c.root with
  | none => .ok (c, [.inputBeforeReady])
  | some _ =>
    match (if 0 ≤ input_idx then c.decl.inputs.get? input_idx.toNat else none) with
    | none => .error "out-of-bounds access to decl.inputs"
    | some slot =>
      if slot.type = .INT then
        .ok ({ c with input := storeBytes c.input slot.offset (u32Bytes value) }, [])
      else .ok (c, [.wrongType])

/-- `AnimationSceneImpl::setControllerBoolInput` (animation_scene.cpp:340-357):
like the int setter, `decl.inputs[input_idx]` is indexed with no bounds check;
a matching BOOL slot receives the single byte of the value. -/
def setControllerBoolInput {N : Type} (c : Controller N) (input_idx : Int)
    (value : Bool) : Except String (Controller N × List LogMsg) :=
  match c.root with
  | none => .ok (c, [.inputBeforeReady])
  | some _ =>
    match (if 0 ≤ input_idx then c.decl.inputs.get? input_idx.toNat else none) with
    | none => .error "out-of-bounds access to decl.inputs"
    | some slot =>
      if slot.type = .BOOL then
        .ok ({ c with input := c.input.set slot.offset (if value then 1 else 0) }, [])
      else .ok (c, [.wrongType])

/-! ### Theorems on the controller runtime -/

/-- Claim C1: for a controller with a ready resource and a non-null root,
`updateController` stores the node returned by the root's `update` call as
the new root, and the `fillPose` of the same tick, when it runs, is invoked
exactly on that returned node — never on the pre-update node. -/
theorem updateController_uses_update_result {N : Type} (ops : NodeOps N)
    (anims : List (Nat × Nat)) (env : RenderEnv) (c : Controller N) (r : N)
    (hready : c.ready = true) (hroot : c.root = some r) :
    (updateController ops anims env c).1.root = some (ops.update r) ∧
      ∀ n, (updateController ops anims env c).2 = some n → n = ops.update r := by
  have h : updateController ops anims env c = runControllerRoot ops env c := by
    simp [updateController, hready, hroot]
  rw [h]
  unfold runControllerRoot
  rw [hroot]
  by_cases h1 : env.hasModelInstance <;> by_cases h2 : env.poseAvailable <;>
    simp [h1, h2]

/-- A concrete ready controller with stored root node `5`, used as witness input. -/
def ctrlRootFive : Controller Nat :=
  { ready := true, decl := ⟨[], 0⟩, root := some 5, input := [],
    animations := [], default_set := 0 }

/-- Witness for C1 at a concrete controller: node type `Nat`, `update = Nat.succ`,
stored root `5`; the new root and the `fillPose` argument are both `6`. -/
theorem updateController_uses_update_result_witness :
    (updateController (N := Nat) ⟨0, id, Nat.succ⟩ [] ⟨true, true⟩
        ctrlRootFive).1.root = some (Nat.succ 5) ∧
      ∀ n, (updateController (N := Nat) ⟨0, id, Nat.succ⟩ [] ⟨true, true⟩
        ctrlRootFive).2 = some n → n = Nat.succ 5 :=
  updateController_uses_update_result ⟨0, id, Nat.succ⟩ [] ⟨true, true⟩ _ 5 rfl rfl

/-- Claim C10: a ready controller whose input declaration has total byte size
zero never initializes: `initControllerRuntime` returns false leaving the
state unchanged (no root created, no `enter`), and `updateController` does
nothing for the entity — the state is returned untouched and no node is
passed to `fillPose`. The same holds on every subsequent tick since the
state does not change. -/
theorem initControllerRuntime_zero_size_never_runs {N : Type} (ops : NodeOps N)
    (anims : List (Nat × Nat)) (env : RenderEnv) (c : Controller N)
    (hready : c.ready = true) (hsize : c.decl.size = 0) (hroot : c.root = none) :
    initControllerRuntime ops anims c = (false, c) ∧
      updateController ops anims env c = (c, none) := by
  constructor
  · simp [initControllerRuntime, hready, hsize]
  · simp [updateController, hready, hroot, initControllerRuntime, hsize]

/-- A concrete ready, uninitialized controller whose input declaration has size 0. -/
def ctrlZeroSize : Controller Nat :=
  { ready := true, decl := ⟨[], 0⟩, root := none, input := [],
    animations := [], default_set := 3 }

/-- Witness for C10 at a concrete ready controller with a zero-size declaration. -/
theorem initControllerRuntime_zero_size_never_runs_witness :
    initControllerRuntime (N := Nat) ⟨7, id, id⟩ [] ctrlZeroSize
        = (false, ctrlZeroSize) ∧
      updateController (N := Nat) ⟨7, id, id⟩ [] ⟨true, true⟩ ctrlZeroSize
        = (ctrlZeroSize, none) :=
  initControllerRuntime_zero_size_never_runs ⟨7, id, id⟩ [] ⟨true, true⟩ _ rfl rfl rfl

/-- A concrete not-ready controller whose runtime still exists: root node `1`,
input buffer `[7]`. -/
def ctrlNotReady : Controller Nat :=
  { ready := false, decl := ⟨[], 4⟩, root := some 1, input := [7],
    animations := [], default_set := 0 }

/-- Counterexample to claim C6 as stated: `updateController` on a not-ready
resource destroys the root but does NOT clear the input buffer — at this
concrete controller the buffer `[7]` survives the teardown. -/
theorem updateController_teardown_keeps_input :
    ((updateController (N := Nat) ⟨0, id, id⟩ [] ⟨true, true⟩ ctrlNotReady).1.root
        = none) ∧
      ¬ ((updateController (N := Nat) ⟨0, id, id⟩ [] ⟨true, true⟩
          ctrlNotReady).1.input = []) := by
  constructor
  · rfl
  · decide

/-- Claim C6 as amended: when the resource is observed not-ready, the root
node is destroyed and set to null on both paths; the resource-state-change
callback additionally clears the input buffer (and the set and animation
bindings), while the `updateController` path leaves the input buffer
untouched — it is re-zeroed only when a later ready tick re-initializes the
runtime through `initControllerRuntime`. -/
theorem notReady_teardown {N : Type} (ops : NodeOps N) (anims : List (Nat × Nat))
    (env : RenderEnv) (c : Controller N) (r : N)
    (hnr : c.ready = false) (hroot : c.root = some r) :
    ((updateController ops anims env c).1.root = none ∧
      (updateController ops anims env c).1.input = c.input) ∧
    ((onControllerResourceChanged false c).root = none ∧
      (onControllerResourceChanged false c).input = []) := by
  refine ⟨⟨?_, ?_⟩, ?_, ?_⟩ <;>
    simp [updateController, onControllerResourceChanged, hnr, hroot]

/-- Witness for the amended C6 at a concrete not-ready controller. -/
theorem notReady_teardown_witness :
    ((updateController (N := Nat) ⟨0, id, id⟩ [] ⟨true, true⟩ ctrlNotReady).1.root
        = none ∧
      (updateController (N := Nat) ⟨0, id, id⟩ [] ⟨true, true⟩ ctrlNotReady).1.input
        = ctrlNotReady.input) ∧
    ((onControllerResourceChanged false ctrlNotReady).root = none ∧
      (onControllerResourceChanged false ctrlNotReady).input = []) :=
  notReady_teardown ⟨0, id, id⟩ [] ⟨true, true⟩ ctrlNotReady 1 rfl rfl

/-- The controller used to exhibit the missing bounds check of the int and
bool input setters: ready, initialized, one FLOAT slot. -/
def ctrlOneFloatSlot : Controller Nat :=
  { ready := true, decl := ⟨[⟨.FLOAT, 0⟩], 4⟩, root := some 0,
    input := [0, 0, 0, 0], animations := [], default_set := 0 }

/-- Claim C5: at the out-of-range index 5 the int and bool setters read
`decl.inputs[5]` out of bounds (modelled as an error) instead of warning and
no-oping, and the float setter, which does have the bounds check, silently
no-ops without logging any warning. -/
theorem setInput_out_of_range_behaviour :
    setControllerIntInput ctrlOneFloatSlot 5 1
        = .error "out-of-bounds access to decl.inputs" ∧
      setControllerBoolInput ctrlOneFloatSlot 5 true
        = .error "out-of-bounds access to decl.inputs" ∧
      setControllerFloatInput ctrlOneFloatSlot 5 1 = .ok (ctrlOneFloatSlot, []) := by
  refine ⟨rfl, rfl, rfl⟩

/-! ### The per-tick event stream and its drain
(`AnimationSceneImpl::processEventStream`, animation_scene.cpp:1114-1149).
The stream is an append-only byte buffer of records
`[type_hash: u32][owner_component: u32][payload_size: u8][payload]`. -/

/-- Modelled from the spec: the value of `crc32("set_input")`, the type hash
the drain dispatches on (the crc32 routine lives outside the excerpt; the
claims do not depend on the actual hash value). -/
def set_input_type : Nat := 3494595864

/-- Modelled from the spec: `Anim::SetInputEvent` (declared outside the
excerpt) — the payload of a set-input record: the input slot index and the
raw 4-byte union holding the bool/int/float value. -/
structure SetInputEvent where
  input_idx : Nat
  value : Nat
deriving DecidableEq, Repr

/-- `sizeof(Anim::SetInputEvent)`: an i32 index plus a 4-byte union. -/
def setInputEventSize : Nat := 8

/-- `InputBlob::read` of a u32: consume four little-endian bytes. -/
def readU32 : List Nat → Option (Nat × List Nat)
  | b0 :: b1 :: b2 :: b3 :: rest =>
    some (b0 + 256 * b1 + 65536 * b2 + 16777216 * b3, rest)
  | _ => none

/-- `InputBlob::read` of a u8: consume one byte. -/
def readU8 : List Nat → Option (Nat × List Nat)
  | b :: rest => some (b, rest)
  | _ => none

/-- `InputBlob::skip(size)`: advance past `n` bytes. -/
def dropBytes : Nat → List Nat → Option (List Nat)
  | 0, l => some l
  | _ + 1, [] => none
  | n + 1, _ :: l => dropBytes n l

/-- `InputBlob::read` of an `Anim::SetInputEvent`: consume its 8 bytes
(the i32 slot index, then the 4-byte value union). -/
def readEvent (l : List Nat) : Option (SetInputEvent × List Nat) :=
  (readU32 l).bind fun p => (readU32 p.2).map fun q => (⟨p.1, q.1⟩, q.2)

/-- The scene's controller components, keyed by component index
(`m_controllers`). -/
def CtrlMap : Type := List (Nat × Controller Nat)

/-- `m_controllers.get({cmp.index})`. -/
def lookupCtrl (m : CtrlMap) (cmp : Nat) : Option (Controller Nat) :=
  (m.find? (fun kv => kv.1 = cmp)).map (·.2)

/-- Replace the controller stored under `cmp`. -/
def updateCtrl (m : CtrlMap) (cmp : Nat) (c : Controller Nat) : CtrlMap :=
  m.map fun kv => if kv.1 = cmp then (kv.1, c) else kv

/-- The set-input dispatch of `processEventStream` (animation_scene.cpp:1128-1142):
fetch the owning controller (`get` asserts presence), and when its resource
is ready write the event value into the slot `decl.inputs[event.input_idx]`
per the slot's declared type; an EMPTY slot is the `ASSERT(false)` default. -/
def applySetInputEvent (m : CtrlMap) (cmp : Nat) (e : SetInputEvent) :
    Except String CtrlMap :=
  match lookupCtrl m cmp with
  | none => .error "controller component not found"
  | some ctrl =>
    if ctrl.ready then
      match ctrl.decl.inputs.get? e.input_idx with
      | none => .error "input index out of bounds"
      | some slot =>
        match slot.type with
        | .BOOL =>
          .ok (updateCtrl m cmp
            { ctrl with input := ctrl.input.set slot.offset (e.value % 256) })
        | .INT =>
          .ok (updateCtrl m cmp
            { ctrl with input := storeBytes ctrl.input slot.offset (u32Bytes e.value) })
        | .FLOAT =>
          .ok (updateCtrl m cmp
            { ctrl with input := storeBytes ctrl.input slot.offset (u32Bytes e.value) })
        | .EMPTY => .error "assert: unknown input type"
    else .ok m

theorem readU32_length {l r : List Nat} {n : Nat} (h : readU32 l = some (n, r)) :
    r.length + 4 = l.length := by
  match l with
  | b0 :: b1 :: b2 :: b3 :: rest =>
    simp only [readU32, Option.some.injEq, Prod.mk.injEq] at h
    simp [← h.2]
  | [] => simp [readU32] at h
  | [_] => simp [readU32] at h
  | [_, _] => simp [readU32] at h
  | [_, _, _] => simp [readU32] at h

theorem readU8_length {l r : List Nat} {n : Nat} (h : readU8 l = some (n, r)) :
    r.length + 1 = l.length := by
  match l with
  | b :: rest =>
    simp only [readU8, Option.some.injEq, Prod.mk.injEq] at h
    simp [← h.2]
  | [] => simp [readU8] at h

theorem dropBytes_length {n : Nat} {l r : List Nat} (h : dropBytes n l = some r) :
    r.length + n = l.length := by
  induction n generalizing l with
  | zero => simp_all [dropBytes]
  | succ k ih =>
    match l with
    | [] => simp [dropBytes] at h
    | _ :: t =>
      have := ih (l := t) (by simpa [dropBytes] using h)
      simp [List.length_cons]
      omega

theorem readEvent_length {l r : List Nat} {e : SetInputEvent}
    (h : readEvent l = some (e, r)) : r.length + 8 = l.length := by
  unfold readEvent at h
  cases h1 : readU32 l with
  | none => rw [h1] at h; exact absurd h (by simp)
  | some p =>
    rw [h1] at h
    simp only [Option.some_bind] at h
    cases h2 : readU32 p.2 with
    | none => rw [h2] at h; exact absurd h (by simp)
    | some q =>
      rw [h2] at h
      simp only [Option.map_some', Option.some.injEq, Prod.mk.injEq] at h
      have e1 : p.2.length + 4 = l.length := readU32_length (by rw [h1])
      have e2 : q.2.length + 4 = p.2.length := readU32_length (by rw [h2])
      rw [h.2] at e2
      omega

/-- One iteration of the `processEventStream` while-loop
(animation_scene.cpp:1118-1147): while bytes remain, read the record header
`[type_hash][owner][payload_size]`, dispatch a set-input record (reading the
8-byte event and writing through `applySetInputEvent`), and skip any other
record by its declared `payload_size`. `.ok none` means the stream is
exhausted; `.ok (some (m, rest))` is the updated scene and the remaining
bytes; truncated reads and the code's assertion points are errors. -/
def drainStep (m : CtrlMap) : List Nat → Except String (Option (CtrlMap × List Nat))
  | [] => .ok none
  | b :: bs =>
    match readU32 (b :: bs) with
    | none => .error "truncated record header"
    | some (ty, r1) =>
      match readU32 r1 with
      | none => .error "truncated record header"
      | some (cmp, r2) =>
        match readU8 r2 with
        | none => .error "truncated record header"
        | some (sz, r3) =>
          if ty = set_input_type then
            match readEvent r3 with
            | none => .error "truncated event payload"
            | some (e, r4) =>
              match applySetInputEvent m cmp e with
              | .error s => .error s
              | .ok m2 => .ok (some (m2, r4))
          else
            match dropBytes sz r3 with
            | none => .error "truncated payload"
            | some r4 => .ok (some (m, r4))

theorem drainStep_length {m m2 : CtrlMap} {l r : List Nat}
    (h : drainStep m l = .ok (some (m2, r))) : r.length < l.length := by
  unfold drainStep at h
  split at h
  · exact absurd h (by simp)
  next b bs =>
    split at h
    · exact absurd h (by simp)
    next ty r1 h1 =>
      split at h
      · exact absurd h (by simp)
      next cmp r2 h2 =>
        split at h
        · exact absurd h (by simp)
        next sz r3 h3 =>
          have e1 := readU32_length h1
          have e2 := readU32_length h2
          have e3 := readU8_length h3
          split at h
          · split at h
            · exact absurd h (by simp)
            next e r4 h4 =>
              have e4 := readEvent_length h4
              split at h
              · exact absurd h (by simp)
              · simp only [Except.ok.injEq, Option.some.injEq, Prod.mk.injEq] at h
                rw [← h.2]
                simp only [List.length_cons] at *
                omega
          · split at h
            · exact absurd h (by simp)
            next r4 h4 =>
              have e4 := dropBytes_length h4
              simp only [Except.ok.injEq, Option.some.injEq, Prod.mk.injEq] at h
              rw [← h.2]
              simp only [List.length_cons] at *
              omega

/-- `AnimationSceneImpl::processEventStream` (animation_scene.cpp:1114-1149):
drain the stream record by record, front to back, until the byte length is
exhausted. -/
def processEventStream (m : CtrlMap) (l : List Nat) : Except String CtrlMap :=
  match h : drainStep m l with
  | .error s => .error s
  | .ok none => .ok m
  | .ok (some (m2, r)) => processEventStream m2 r
termination_by l.length
decreasing_by exact drainStep_length h

theorem processEventStream_of_step_some {m m2 : CtrlMap} {l r : List Nat}
    (h : drainStep m l = .ok (some (m2, r))) :
    processEventStream m l = processEventStream m2 r := by
  rw [processEventStream.eq_def]
  split
  next s heq => rw [heq] at h; exact absurd h (by simp)
  next heq => rw [heq] at h; exact absurd h (by simp)
  next m3 r3 heq =>
    rw [heq] at h
    simp only [Except.ok.injEq, Option.some.injEq, Prod.mk.injEq] at h
    rw [h.1, h.2]

theorem processEventStream_of_step_none {m : CtrlMap} {l : List Nat}
    (h : drainStep m l = .ok none) : processEventStream m l = .ok m := by
  rw [processEventStream.eq_def]
  split
  next s heq => rw [heq] at h; exact absurd h (by simp)
  next heq => rfl
  next m3 r3 heq => rw [heq] at h; exact absurd h (by simp)

/-- A record of the event stream as a producer appends it: either a
set-input event owned by controller `cmp`, or a record of any other type
hash with an opaque payload. -/
inductive EventRecord
  | setInput (cmp : Nat) (e : SetInputEvent)
  | other (ty cmp : Nat) (payload : List Nat)
deriving DecidableEq, Repr

/-- The wire bytes of an `Anim::SetInputEvent`. -/
def encodeEvent (e : SetInputEvent) : List Nat :=
  u32Bytes e.input_idx ++ u32Bytes e.value

/-- The wire bytes of one record:
`[type_hash: u32][owner_component: u32][payload_size: u8][payload]`. -/
def encodeRecord : EventRecord → List Nat
  | .setInput cmp e =>
    u32Bytes set_input_type ++ u32Bytes cmp ++ [setInputEventSize] ++ encodeEvent e
  | .other ty cmp p => u32Bytes ty ++ u32Bytes cmp ++ [p.length] ++ p

/-- The whole stream: records appended in order. -/
def encodeStream : List EventRecord → List Nat
  | [] => []
  | r :: rs => encodeRecord r ++ encodeStream rs

/-- Well-formedness of one record against the controller map it will be
drained into: u32 fields fit in 32 bits; a set-input record's owner exists,
and when that owner is ready its slot index is declared (non-EMPTY); any
other record's type hash differs from the set-input hash and its payload
fits the u8 size field. -/
def recordWF (m : CtrlMap) : EventRecord → Prop
  | .setInput cmp e =>
    cmp < 4294967296 ∧ e.input_idx < 4294967296 ∧ e.value < 4294967296 ∧
      ∃ ctrl, lookupCtrl m cmp = some ctrl ∧
        (ctrl.ready = true →
          ∃ slot, ctrl.decl.inputs.get? e.input_idx = some slot ∧
            slot.type ≠ InputType.EMPTY)
  | .other ty cmp p =>
    ty ≠ set_input_type ∧ ty < 4294967296 ∧ cmp < 4294967296 ∧ p.length < 256

/-- The record-level semantics of the drain: a set-input record writes the
event value into the owning ready controller's declared slot per its type;
every other record leaves the scene untouched. -/
def applyRecordSpec (m : CtrlMap) : EventRecord → CtrlMap
  | .setInput cmp e =>
    match lookupCtrl m cmp with
    | none => m
    | some ctrl =>
      if ctrl.ready then
        match ctrl.decl.inputs.get? e.input_idx with
        | none => m
        | some slot =>
          match slot.type with
          | .BOOL =>
            updateCtrl m cmp
              { ctrl with input := ctrl.input.set slot.offset (e.value % 256) }
          | .INT =>
            updateCtrl m cmp
              { ctrl with input := storeBytes ctrl.input slot.offset (u32Bytes e.value) }
          | .FLOAT =>
            updateCtrl m cmp
              { ctrl with input := storeBytes ctrl.input slot.offset (u32Bytes e.value) }
          | .EMPTY => m
      else m
  | .other _ _ _ => m

/-- Well-formedness of a stream of records: each record is well formed
against the map as it stands when the drain reaches that record. -/
def streamWF (m : CtrlMap) : List EventRecord → Prop
  | [] => True
  | r :: rs => recordWF m r ∧ streamWF (applyRecordSpec m r) rs

theorem readU32_u32Bytes {n : Nat} (hn : n < 4294967296) (r : List Nat) :
    readU32 (u32Bytes n ++ r) = some (n, r) := by
  simp only [u32Bytes, List.cons_append, List.nil_append, readU32,
    Option.some.injEq, Prod.mk.injEq, and_true]
  omega

theorem dropBytes_append (p r : List Nat) : dropBytes p.length (p ++ r) = some r := by
  induction p with
  | nil => rfl
  | cons a t ih => simpa [dropBytes] using ih

theorem readEvent_encodeEvent {e : SetInputEvent} (h1 : e.input_idx < 4294967296)
    (h2 : e.value < 4294967296) (r : List Nat) :
    readEvent (encodeEvent e ++ r) = some (e, r) := by
  unfold readEvent encodeEvent
  rw [List.append_assoc, readU32_u32Bytes h1]
  simp only [Option.some_bind]
  rw [readU32_u32Bytes h2]
  rfl

/-- On a well-formed set-input record, the byte-level dispatch succeeds and
agrees with the record-level semantics. -/
theorem applySetInputEvent_wf {m : CtrlMap} {cmp : Nat} {e : SetInputEvent}
    (h : recordWF m (.setInput cmp e)) :
    applySetInputEvent m cmp e = .ok (applyRecordSpec m (.setInput cmp e)) := by
  obtain ⟨-, -, -, ctrl, hl, hs⟩ := h
  by_cases hr : ctrl.ready = true
  · obtain ⟨slot, hslot, hty⟩ := hs hr
    have hslot2 : ctrl.decl.inputs[e.input_idx]? = some slot := by
      simpa using hslot
    cases hty2 : slot.type
    · simp [applySetInputEvent, applyRecordSpec, hl, hr, hslot2, hty2]
    · simp [applySetInputEvent, applyRecordSpec, hl, hr, hslot2, hty2]
    · simp [applySetInputEvent, applyRecordSpec, hl, hr, hslot2, hty2]
    · exact absurd hty2 hty
  · simp [applySetInputEvent, applyRecordSpec, hl, hr]

theorem u32_recompose (n : Nat) (hn : n < 4294967296) :
    n % 256 + 256 * (n / 256 % 256) + 65536 * (n / 65536 % 256)
      + 16777216 * (n / 16777216 % 256) = n := by
  omega

/-- One loop iteration on a record-aligned stream position: the header is
decoded back into its type hash, owner and size, and the body dispatches on
the type hash. -/
theorem drainStep_header (m : CtrlMap) (ty cmp sz : Nat) (tail : List Nat)
    (hty : ty < 4294967296) (hcmp : cmp < 4294967296) :
    drainStep m (u32Bytes ty ++ u32Bytes cmp ++ sz :: tail)
      = if ty = set_input_type then
          match readEvent tail with
          | none => .error "truncated event payload"
          | some (e, r4) =>
            match applySetInputEvent m cmp e with
            | .error s => .error s
            | .ok m2 => .ok (some (m2, r4))
        else
          match dropBytes sz tail with
          | none => .error "truncated payload"
          | some r4 => .ok (some (m, r4)) := by
  simp only [u32Bytes, List.cons_append, List.nil_append, drainStep, readU32, readU8]
  rw [u32_recompose ty hty, u32_recompose cmp hcmp]

theorem drainStep_encode_set {m m2 : CtrlMap} {cmp : Nat} {e : SetInputEvent}
    (rest : List Nat) (hcmp : cmp < 4294967296) (hidx : e.input_idx < 4294967296)
    (hval : e.value < 4294967296)
    (happ : applySetInputEvent m cmp e = .ok m2) :
    drainStep m (encodeRecord (.setInput cmp e) ++ rest) = .ok (some (m2, rest)) := by
  have hshape : encodeRecord (.setInput cmp e) ++ rest
      = u32Bytes set_input_type ++ u32Bytes cmp
          ++ setInputEventSize :: (encodeEvent e ++ rest) := by
    simp [encodeRecord, List.append_assoc]
  rw [hshape, drainStep_header m set_input_type cmp setInputEventSize
      (encodeEvent e ++ rest) (by norm_num [set_input_type]) hcmp]
  rw [if_pos rfl, readEvent_encodeEvent hidx hval]
  simp only [happ]

theorem drainStep_encode_other {m : CtrlMap} {ty cmp : Nat} {p : List Nat}
    (rest : List Nat) (hne : ty ≠ set_input_type) (hty : ty < 4294967296)
    (hcmp : cmp < 4294967296) :
    drainStep m (encodeRecord (.other ty cmp p) ++ rest) = .ok (some (m, rest)) := by
  have hshape : encodeRecord (.other ty cmp p) ++ rest
      = u32Bytes ty ++ u32Bytes cmp ++ p.length :: (p ++ rest) := by
    simp [encodeRecord, List.append_assoc]
  rw [hshape, drainStep_header m ty cmp p.length (p ++ rest) hty hcmp]
  rw [if_neg hne, dropBytes_append]

/-- Claim C7: on a stream of well-formed records the drain visits the
records in append order until the byte length is exhausted, applies exactly
the records whose type hash is the set-input hash — writing the event value
into the owning controller's input slot per its declared type, as
`applyRecordSpec` states — and advances past every other record by exactly
its declared payload size, without failing. -/
theorem processEventStream_drains_in_order (rs : List EventRecord) (m : CtrlMap)
    (h : streamWF m rs) :
    processEventStream m (encodeStream rs) = .ok (rs.foldl applyRecordSpec m) := by
  induction rs generalizing m with
  | nil => exact processEventStream_of_step_none rfl
  | cons r rs ih =>
    obtain ⟨hr, hrs⟩ := h
    cases r with
    | setInput cmp e =>
      have happ := applySetInputEvent_wf hr
      obtain ⟨hcmp, hidx, hval, -⟩ := hr
      have hstep := drainStep_encode_set (encodeStream rs) hcmp hidx hval happ
      rw [encodeStream, processEventStream_of_step_some hstep, List.foldl_cons]
      exact ih _ hrs
    | other ty cmp p =>
      obtain ⟨hne, hty, hcmp, -⟩ := hr
      have hstep := drainStep_encode_other (m := m) (p := p)
        (encodeStream rs) hne hty hcmp
      rw [encodeStream, processEventStream_of_step_some hstep, List.foldl_cons]
      exact ih _ hrs

/-- A concrete scene for the stream witness: one ready controller under
component index 1 with a single FLOAT slot. -/
def ctrlStream : Controller Nat :=
  { ready := true, decl := ⟨[⟨.FLOAT, 0⟩], 4⟩, root := some 0,
    input := [0, 0, 0, 0], animations := [], default_set := 0 }

/-- The witness controller map. -/
def mapStream : CtrlMap := [(1, ctrlStream)]

/-- The witness stream: an unrecognized record (type hash 7) followed by a
set-input record for controller 1. -/
def recsStream : List EventRecord :=
  [.other 7 9 [1, 2], .setInput 1 ⟨0, 42⟩]

/-- Witness for C7 at the concrete stream: the drain skips the unknown
record and applies the set-input record, yielding the record-level fold. -/
theorem processEventStream_drains_in_order_witness :
    processEventStream mapStream (encodeStream recsStream)
      = .ok (recsStream.foldl applyRecordSpec mapStream) :=
  processEventStream_drains_in_order recsStream mapStream
    ⟨⟨by decide, by norm_num, by norm_num, by norm_num⟩,
      ⟨by norm_num, by norm_num, by norm_num,
        ctrlStream, rfl, fun _ => ⟨⟨.FLOAT, 0⟩, rfl, by decide⟩⟩,
      trivial⟩

/-! ### The ragdoll skeleton graph
(`PhysicsSceneImpl` in `src/src/physics/physics_scene.cpp`). Bones are
arena-allocated and addressed by stable ids; the C++ raw pointers `parent`,
`child`, `next`, `prev` become optional ids, a null pointer being `none`.
The source skeleton is the list of each model bone's `parent_idx`
(negative = no parent). -/

/-- `PxJointConcreteType::eREVOLUTE` (the value itself is irrelevant to the
claims; the joint types form the PhysX extension-joint enum). -/
def eREVOLUTE : Nat := 257

/-- `struct RagdollBone` (physics_scene.cpp:63-79), navigation and joint
state only: `joint` is `parent_joint` (`some ty` = a live joint of concrete
type `ty`). -/
structure BoneN where
  pose_bone_idx : Nat
  parent : Option Nat
  child : Option Nat
  next : Option Nat
  prev : Option Nat
  joint : Option Nat
deriving DecidableEq, Repr

/-- `struct Ragdoll` (physics_scene.cpp:82-86) plus the arena of bones:
`bones` maps a bone id to its record, `root` is the ragdoll's root pointer,
`nextId` the next fresh id. -/
structure RagdollS where
  bones : List (Nat × BoneN)
  root : Option Nat
  nextId : Nat
deriving DecidableEq, Repr

/-- Dereference a bone id. -/
def getB (s : RagdollS) (i : Nat) : Option BoneN :=
  (s.bones.find? (fun kv => kv.1 = i)).map (·.2)

/-- Write through a bone id (`none` when the id dangles — a null/dangling
pointer dereference in the C++). -/
def modB (s : RagdollS) (i : Nat) (f : BoneN → BoneN) : Option RagdollS :=
  match getB s i with
  | none => none
  | some _ =>
    some { s with bones := s.bones.map fun kv => if kv.1 = i then (kv.1, f kv.2) else kv }

/-- `PhysicsSceneImpl::getBone` (physics_scene.cpp:1471-1482): search the
intrusive tree for the bone with the given `pose_bone_idx`, visiting the
bone, then its child subtree, then its next-sibling chain. Fuel bounds the
pointer walk. -/
def getBoneT (s : RagdollS) : Nat → Option Nat → Nat → Option Nat
  | 0, _, _ => none
  | _ + 1, none, _ => none
  | fuel + 1, some i, target =>
    match getB s i with
    | none => none
    | some b =>
      if b.pose_bone_idx = target then some i
      else
        match getBoneT s fuel b.child target with
        | some r => some r
        | none => getBoneT s fuel b.next target

/-- The fuel used for pointer walks: one more than the bone count. -/
def walkFuel (s : RagdollS) : Nat := s.bones.length + 1

/-- The do-while loop of `getPhyParent`: look the current skeleton bone up
in the ragdoll, else step to its skeleton parent while one exists. -/
def getPhyParentLoop (s : RagdollS) (skel : List Int) : Nat → Nat → Option Nat
  | 0, _ => none
  | fuel + 1, bidx =>
    match getBoneT s (walkFuel s) s.root bidx with
    | some b => some b
    | none =>
      let p := skel.getD bidx (-1)
      if 0 ≤ p then getPhyParentLoop s skel fuel p.toNat else none

/-- `PhysicsSceneImpl::getPhyParent` (physics_scene.cpp:1589-1600): walk up
the source skeleton's parent chain from `bone_index` until a skeleton bone
with an existing ragdoll bone is found; null when the chain runs out. -/
def getPhyParent (s : RagdollS) (skel : List Int) (bone_index : Nat) : Option Nat :=
  let p := skel.getD bone_index (-1)
  if p < 0 then none
  else getPhyParentLoop s skel (skel.length + 1) p.toNat

/-- `PhysicsSceneImpl::changeRagdollBoneJoint` (physics_scene.cpp:1611-1650):
releases the old joint and creates a joint of the given concrete type
between the bone and its parent (dereferencing `child->parent`, so a null
parent is an error). -/
def changeRagdollBoneJoint (s : RagdollS) (cid : Nat) (ty : Nat) : Option RagdollS :=
  match getB s cid with
  | none => none
  | some cb =>
    match cb.parent with
    | none => none
    | some p =>
      match getB s p with
      | none => none
      | some _ => modB s cid fun b => { b with joint := some ty }

/-- The while-loop of `disconnect` (physics_scene.cpp:1662-1687): walk the
disconnected bone's original child chain; each child's joint is released,
and the child is relinked under `parent` (with a fresh revolute joint) or
pushed onto the root list when there is no parent. -/
def reparentChildren : Nat → RagdollS → Option Nat → Option Nat → Option RagdollS
  | _, s, _, none => some s
  | 0, _, _, some _ => none
  | fuel + 1, s, parent, some c =>
    match getB s c with
    | none => none
    | some cb =>
      let nxt := cb.next
      match modB s c (fun b => { b with joint := none }) with
      | none => none
      | some s1 =>
        match parent with
        | some p =>
          match getB s1 p with
          | none => none
          | some pb =>
            match modB s1 c (fun b => { b with next := pb.child, prev := none }) with
            | none => none
            | some s2 =>
              let s3o := match pb.child with
                | some h => modB s2 h fun b => { b with prev := some c }
                | none => some s2
              match s3o with
              | none => none
              | some s3 =>
                match modB s3 p (fun b => { b with child := some c }) with
                | none => none
                | some s4 =>
                  match modB s4 c (fun b => { b with parent := some p }) with
                  | none => none
                  | some s5 =>
                    match changeRagdollBoneJoint s5 c eREVOLUTE with
                    | none => none
                    | some s6 => reparentChildren fuel s6 parent nxt
        | none =>
          match modB s1 c (fun b => { b with parent := none, next := s1.root, prev := none }) with
          | none => none
          | some s2 =>
            let s3o := match s2.root with
              | some h => modB s2 h fun b => { b with prev := some c }
              | none => some s2
            match s3o with
            | none => none
            | some s3 => reparentChildren fuel { s3 with root := some c } parent nxt

/-- `PhysicsSceneImpl::disconnect` (physics_scene.cpp:1653-1696): unlink the
bone from its parent's child list, the root list and its sibling links;
reparent each of its children one level up (or promote them to roots);
release the bone's joint; then link the bone in front of the root list —
NOTE the source sets `bone->next = ragdoll.root` and the old head's `prev`,
but never updates `ragdoll.root` to the bone. -/
def disconnect (s0 : RagdollS) (bid : Nat) : Option RagdollS :=
  match getB s0 bid with
  | none => none
  | some bone =>
    let s1o := match bone.parent with
      | some p =>
        modB s0 p fun pb => if pb.child = some bid then { pb with child := bone.next } else pb
      | none => some s0
    match s1o with
    | none => none
    | some s1 =>
      let s2 := if s1.root = some bid then { s1 with root := bone.next } else s1
      let s3o := match bone.prev with
        | some pr => modB s2 pr fun b => { b with next := bone.next }
        | none => some s2
      match s3o with
      | none => none
      | some s3 =>
        let s4o := match bone.next with
          | some nx => modB s3 nx fun b => { b with prev := bone.prev }
          | none => some s3
        match s4o with
        | none => none
        | some s4 =>
          match reparentChildren (s4.bones.length + 1) s4 bone.parent bone.child with
          | none => none
          | some s5 =>
            match modB s5 bid (fun b =>
                { b with joint := none, parent := none, child := none,
                         prev := none, next := s5.root }) with
            | none => none
            | some s6 =>
              match s5.root with
              | some h => modB s6 h fun b => { b with prev := some bid }
              | none => some s6

/-- `PhysicsSceneImpl::connect` (physics_scene.cpp:1699-1711): unlink the
child from its sibling list and the root list, push it onto the parent's
child list and create a revolute joint (the child's own `prev` is left
untouched, as in the source). -/
def connect (s0 : RagdollS) (cid pid : Nat) : Option RagdollS :=
  match getB s0 cid with
  | none => none
  | some cb =>
    let s1o := match cb.next with
      | some nx => modB s0 nx fun b => { b with prev := cb.prev }
      | none => some s0
    match s1o with
    | none => none
    | some s1 =>
      let s2o := match cb.prev with
        | some pr => modB s1 pr fun b => { b with next := cb.next }
        | none => some s1
      match s2o with
      | none => none
      | some s2 =>
        let s3 := if s2.root = some cid then { s2 with root := cb.next } else s2
        match getB s3 pid with
        | none => none
        | some pb =>
          match modB s3 cid (fun b => { b with next := pb.child }) with
          | none => none
          | some s4 =>
            let s5o := match pb.child with
              | some h => modB s4 h fun b => { b with prev := some cid }
              | none => some s4
            match s5o with
            | none => none
            | some s5 =>
              match modB s5 pid (fun b => { b with child := some cid }) with
              | none => none
              | some s6 =>
                match modB s6 cid (fun b => { b with parent := some pid }) with
                | none => none
                | some s7 => changeRagdollBoneJoint s7 cid eREVOLUTE

/-- The first loop of `findCloserChildren` (physics_scene.cpp:1716-1726):
scan the root list; the first root bone (other than the new bone) whose
closest existing ragdoll ancestor is the new bone is disconnected and
reconnected under it, then the loop BREAKS. -/
def fccRootLoop (skel : List Int) (bid : Nat) :
    Nat → RagdollS → Option Nat → Option RagdollS
  | _, s, none => some s
  | 0, _, some _ => none
  | fuel + 1, s, some r =>
    match getB s r with
    | none => none
    | some rb =>
      if r = bid then fccRootLoop skel bid fuel s rb.next
      else
        match getPhyParent s skel rb.pose_bone_idx with
        | some t =>
          if t = bid then
            match disconnect s r with
            | none => none
            | some s1 => connect s1 r bid
          else fccRootLoop skel bid fuel s rb.next
        | none => fccRootLoop skel bid fuel s rb.next

/-- The second loop of `findCloserChildren` (physics_scene.cpp:1729-1738)
over the new bone's siblings — NOTE the source queries
`getPhyParent(cmp, model, bone->pose_bone_idx)`, the NEW bone's own closest
ancestor, not the sibling's (`child->pose_bone_idx`). -/
def fccSibLoop (skel : List Int) (bid : Nat) :
    Nat → RagdollS → Option Nat → Option RagdollS
  | _, s, none => some s
  | 0, _, some _ => none
  | fuel + 1, s, some c =>
    match getB s c with
    | none => none
    | some cb =>
      if c = bid then fccSibLoop skel bid fuel s cb.next
      else
        match getB s bid with
        | none => none
        | some bb =>
          match getPhyParent s skel bb.pose_bone_idx with
          | some t =>
            if t = bid then
              match disconnect s c with
              | none => none
              | some s1 =>
                match connect s1 c bid with
                | none => none
                | some s2 =>
                  match getB s2 c with
                  | none => none
                  | some cb2 => fccSibLoop skel bid fuel s2 cb2.next
            else fccSibLoop skel bid fuel s cb.next
          | none => fccSibLoop skel bid fuel s cb.next

/-- `PhysicsSceneImpl::findCloserChildren` (physics_scene.cpp:1714-1739). -/
def findCloserChildren (s : RagdollS) (skel : List Int) (bid : Nat) :
    Option RagdollS :=
  match fccRootLoop skel bid (s.bones.length + 1) s s.root with
  | none => none
  | some s1 =>
    match getB s1 bid with
    | none => none
    | some bb =>
      match bb.parent with
      | none => some s1
      | some p =>
        match getB s1 p with
        | none => none
        | some pb => fccSibLoop skel bid (s1.bones.length + 1) s1 pb.child

/-- `PhysicsSceneImpl::createRagdollBone` (physics_scene.cpp:1761-1806),
graph mutation only: allocate the bone for the given skeleton bone index,
push it in front of the root list, connect it under its closest existing
ragdoll ancestor (if any), then re-balance with `findCloserChildren`.
Returns the new bone's id. -/
def createRagdollBone (s0 : RagdollS) (skel : List Int) (boneIdx : Nat) :
    Option (RagdollS × Nat) :=
  let nid := s0.nextId
  let nb : BoneN :=
    { pose_bone_idx := boneIdx, parent := none, child := none,
      next := s0.root, prev := none, joint := none }
  let s1 : RagdollS :=
    { s0 with bones := s0.bones ++ [(nid, nb)], nextId := nid + 1 }
  let s2o := match s0.root with
    | some h => modB s1 h fun b => { b with prev := some nid }
    | none => some s1
  match s2o with
  | none => none
  | some s2 =>
    let s3 : RagdollS := { s2 with root := some nid }
    let s4o := match getPhyParent s3 skel boneIdx with
      | some p => connect s3 nid p
      | none => some s3
    match s4o with
    | none => none
    | some s4 =>
      match findCloserChildren s4 skel nid with
      | none => none
      | some s5 => some (s5, nid)

/-- The root chain: the bone ids reachable from `ragdoll.root` along `next`. -/
def chainNext (s : RagdollS) : Nat → Option Nat → List Nat
  | 0, _ => []
  | _, none => []
  | fuel + 1, some i => i :: chainNext s fuel ((getB s i).bind BoneN.next)

/-- The ids on the ragdoll's root list, walked from the root pointer. -/
def rootChain (s : RagdollS) : List Nat :=
  chainNext s (s.bones.length + 1) s.root

/-- A three-bone source skeleton chain: bone 0 is the root, bone 1 its
child, bone 2 the grandchild. -/
def skelChain3 : List Int := [-1, 0, 1]

/-- An empty ragdoll. -/
def emptyRagdoll : RagdollS := ⟨[], none, 0⟩

/-- Scenario: create ragdoll bones for skeleton bones 0, 1, 2 in order
(building the chain id0 ← id1 ← id2), then disconnect the middle bone
(id 1, found by name as `destroyRagdollBone` does). -/
def ragdollScenarioA : Option RagdollS :=
  match createRagdollBone emptyRagdoll skelChain3 0 with
  | none => none
  | some (s, _) =>
    match createRagdollBone s skelChain3 1 with
    | none => none
    | some (s, _) =>
      match createRagdollBone s skelChain3 2 with
      | none => none
      | some (s, _) =>
        match getBoneT s (walkFuel s) s.root 1 with
        | none => none
        | some b => disconnect s b

/-- Scenario: create ragdoll bones for skeleton bones 0, then 2, then 1 —
the creation order `findCloserChildren` exists to repair. Ids: 0 ↦ skeleton
bone 0, 1 ↦ skeleton bone 2, 2 ↦ skeleton bone 1. -/
def ragdollScenarioB : Option RagdollS :=
  match createRagdollBone emptyRagdoll skelChain3 0 with
  | none => none
  | some (s, _) =>
    match createRagdollBone s skelChain3 2 with
    | none => none
    | some (s, _) =>
      match createRagdollBone s skelChain3 1 with
      | none => none
      | some (s, _) => some s

/-- Claim C2 fails on the code: after `createRagdollBone` 0, 1, 2 and
`disconnect` of bone 1, bone 1 is parentless yet unreachable from the
ragdoll's root pointer via `next` — the root chain is just `[0]`, and the
chain's head even holds a back-link `prev = some 1` pointing out of the
chain. `disconnect` pushes the bone in front of the root list but never
re-points `ragdoll.root` at it. -/
theorem disconnected_bone_unreachable_from_root :
    ragdollScenarioA.map (fun s =>
        ((getB s 1).map BoneN.parent, rootChain s, (getB s 0).map BoneN.prev))
      = some (some none, [0], some (some 1)) := by
  rfl

/-- Claim C3 on the code: after disconnecting bone 1 (parent id 0, child
id 2), the child IS reparented one level up — bone 2 hangs under bone 0
with a fresh revolute joint — and bone 1 is parentless, childless and
jointless as claimed, but it is NOT an entry of the ragdoll's root list:
the root chain is `[0]` and does not contain it. -/
theorem disconnected_bone_not_in_root_list :
    ragdollScenarioA.map (fun s =>
        ((getB s 2).map (fun b => (b.parent, b.joint)),
         (getB s 1).map (fun b => (b.parent, b.child, b.joint)),
         (rootChain s).contains 1))
      = some (some (some 0, some eREVOLUTE), some (none, none, none), false) := by
  rfl

/-- Claim C4 fails on the code: in scenario B (create skeleton bones 0, 2,
1), after bone id 2 (skeleton bone 1) is inserted, the closest existing
ragdoll ancestor of its sibling id 1 (skeleton bone 2) is id 2 itself —
`getPhyParent` returns it — yet the sibling loop of `findCloserChildren`
queries the NEW bone's own ancestor instead of the sibling's, so id 1 stays
connected to id 0 (skeleton bone 0) and is never reparented under id 2. -/
theorem findCloserChildren_misses_sibling :
    ragdollScenarioB.map (fun s =>
        (getPhyParent s skelChain3 2, (getB s 1).map BoneN.parent))
      = some (some 2, some (some 0)) := by
  rfl

/-! ### Ragdoll serialization
(`serializeRagdollBone` / `deserializeRagdollBone`,
physics_scene.cpp:2519-2699). The blob is modelled at the granularity of
the typed values `OutputBlob::write` emits; float scalars are carried as
rationals, copied verbatim. -/

/-- Remaining PhysX extension-joint concrete types used by the scene
(`eREVOLUTE` is defined above). -/
def eSPHERICAL : Nat := 256

/-- `PxJointConcreteType::eFIXED`. -/
def eFIXED : Nat := 259

/-- `PxJointConcreteType::eDISTANCE`. -/
def eDISTANCE : Nat := 260

/-- A `Transform` (position + quaternion) as serialized. -/
structure PTransform where
  px : ℚ
  py : ℚ
  pz : ℚ
  qx : ℚ
  qy : ℚ
  qz : ℚ
  qw : ℚ
deriving DecidableEq, Repr

/-- A `PxVec3` (the box half extents). -/
structure Vec3Q where
  x : ℚ
  y : ℚ
  z : ℚ
deriving DecidableEq, Repr

/-- A `PxJointAngularLimitPair` as one serialized value. -/
structure LimitPair where
  lower : ℚ
  upper : ℚ
deriving DecidableEq, Repr

/-- The shape of a ragdoll bone's actor (`RagdollBone::Type`): `BOX` with
half extents, or `CAPSULE` with half height and radius. -/
inductive GeomQ
  | box (halfExtents : Vec3Q)
  | capsule (halfHeight radius : ℚ)
deriving DecidableEq, Repr

/-- A ragdoll parent joint's concrete type with its serialized parameters.
`sphericalJ` joints exist at runtime (`changeRagdollBoneJoint` creates them)
but `serializeRagdollJoint` has no case for them. -/
inductive JointParams
  | fixedJ
  | distanceJ (minD maxD tol stiff damp : ℚ) (flags : Nat)
  | revoluteJ (limit : LimitPair) (flags : Nat)
  | sphericalJ
deriving DecidableEq, Repr

/-- `(int)parent_joint->getConcreteType()` for each representable joint. -/
def jointTypeTag : JointParams → Nat
  | .fixedJ => eFIXED
  | .distanceJ _ _ _ _ _ _ => eDISTANCE
  | .revoluteJ _ _ => eREVOLUTE
  | .sphericalJ => eSPHERICAL

/-- A bone's `parent_joint` as serialized: concrete type + parameters and
the two joint local poses. -/
structure JointData where
  params : JointParams
  localPose0 : PTransform
  localPose1 : PTransform
deriving DecidableEq, Repr

/-- The per-bone serialized fields of `RagdollBone`. -/
structure BoneData where
  pose_bone_idx : Int
  globalPose : PTransform
  bind_transform : PTransform
  geom : GeomQ
deriving DecidableEq, Repr

/-- A ragdoll bone tree: every node carries its data, its optional parent
joint, its first child subtree and its next-sibling subtree. `parent` and
`prev` pointers are positional: a node's parent is the node it hangs under
via `child`, its `prev` the sibling before it (null for a chain head), which
is exactly how `deserializeRagdollBone` reconstructs them. -/
inductive RagdollTree
  | nil
  | node (d : BoneData) (joint : Option JointData) (child next : RagdollTree)
deriving DecidableEq, Repr

/-- One typed value written to / read from the blob. -/
inductive WireItem
  | wInt (i : Int)
  | wBool (b : Bool)
  | wU32 (n : Nat)
  | wReal (q : ℚ)
  | wTransform (t : PTransform)
  | wVec3 (v : Vec3Q)
  | wLimit (l : LimitPair)
deriving DecidableEq, Repr

/-- `serializeRagdollJoint` (physics_scene.cpp:2519-2553): a null-joint flag,
else the flag, the concrete type, both local poses and the per-type
parameters; a spherical joint hits the `default: ASSERT(false)`. -/
def serializeRagdollJoint (j : Option JointData) : Except String (List WireItem) :=
  match j with
  | none => .ok [.wBool false]
  | some jd =>
    let hdr : List WireItem :=
      [.wBool true, .wInt (jointTypeTag jd.params : Int),
       .wTransform jd.localPose0, .wTransform jd.localPose1]
    match jd.params with
    | .fixedJ => .ok hdr
    | .distanceJ mi ma tol st da fl =>
      .ok (hdr ++ [.wReal mi, .wReal ma, .wReal tol, .wReal st, .wReal da, .wU32 fl])
    | .revoluteJ lim fl => .ok (hdr ++ [.wLimit lim, .wU32 fl])
    | .sphericalJ => .error "assert: joint type not handled by serializeRagdollJoint"

/-- `serializeRagdollBone` (physics_scene.cpp:2556-2591): `-1` for a null
bone; otherwise the pose bone index, the actor's global pose, the bind
transform and the shape geometry, then the child subtree, the next subtree
and finally the bone's joint. -/
def serializeRagdollBone : RagdollTree → Except String (List WireItem)
  | .nil => .ok [.wInt (-1)]
  | .node d j c n =>
    let geomItems : List WireItem :=
      match d.geom with
      | .box he => [.wInt 0, .wVec3 he]
      | .capsule hh r => [.wInt 1, .wReal hh, .wReal r]
    match serializeRagdollBone c with
    | .error s => .error s
    | .ok cs =>
      match serializeRagdollBone n with
      | .error s => .error s
      | .ok ns =>
        match serializeRagdollJoint j with
        | .error s => .error s
        | .ok js =>
          .ok ([.wInt d.pose_bone_idx, .wTransform d.globalPose,
                .wTransform d.bind_transform] ++ geomItems ++ cs ++ ns ++ js)

/-- `InputBlob::read` of an int. -/
def rdInt : List WireItem → Option (Int × List WireItem)
  | .wInt i :: r => some (i, r)
  | _ => none

/-- `InputBlob::read` of a bool. -/
def rdBool : List WireItem → Option (Bool × List WireItem)
  | .wBool b :: r => some (b, r)
  | _ => none

/-- `InputBlob::read` of a u32. -/
def rdU32 : List WireItem → Option (Nat × List WireItem)
  | .wU32 n :: r => some (n, r)
  | _ => none

/-- `InputBlob::read` of a float scalar. -/
def rdReal : List WireItem → Option (ℚ × List WireItem)
  | .wReal q :: r => some (q, r)
  | _ => none

/-- `InputBlob::read` of a `Transform`. -/
def rdTransform : List WireItem → Option (PTransform × List WireItem)
  | .wTransform t :: r => some (t, r)
  | _ => none

/-- `InputBlob::read` of a `PxVec3`. -/
def rdVec3 : List WireItem → Option (Vec3Q × List WireItem)
  | .wVec3 v :: r => some (v, r)
  | _ => none

/-- `InputBlob::read` of a `PxJointAngularLimitPair`. -/
def rdLimit : List WireItem → Option (LimitPair × List WireItem)
  | .wLimit l :: r => some (l, r)
  | _ => none

/-- `deserializeRagdollJoint` (physics_scene.cpp:2594-2644). `hasParent`
records whether the owning bone got a parent: `changeRagdollBoneJoint`
dereferences `child->parent`, so a joint on a parentless bone is a null
dereference. `changeRagdollBoneJoint` can only create FIXED, REVOLUTE and
SPHERICAL joints (its `default` asserts and leaves `parent_joint` null, so
the following `setLocalPose` dereferences null — the DISTANCE case); a
SPHERICAL joint then has no case in this function's own parameter switch. -/
def deserializeRagdollJoint (hasParent : Bool) (l : List WireItem) :
    Except String (Option JointData × List WireItem) :=
  match rdBool l with
  | none => .error "truncated joint flag"
  | some (false, r) => .ok (none, r)
  | some (true, r) =>
    match rdInt r with
    | none => .error "truncated joint type"
    | some (ty, r1) =>
      if !hasParent then .error "null parent in changeRagdollBoneJoint"
      else
        match rdTransform r1 with
        | none => .error "truncated joint local pose"
        | some (lp0, r2) =>
          match rdTransform r2 with
          | none => .error "truncated joint local pose"
          | some (lp1, r3) =>
            if ty = (eFIXED : Int) then .ok (some ⟨.fixedJ, lp0, lp1⟩, r3)
            else if ty = (eREVOLUTE : Int) then
              match rdLimit r3 with
              | none => .error "truncated revolute limit"
              | some (lim, r4) =>
                match rdU32 r4 with
                | none => .error "truncated revolute flags"
                | some (fl, r5) => .ok (some ⟨.revoluteJ lim fl, lp0, lp1⟩, r5)
            else if ty = (eSPHERICAL : Int) then
              .error "assert: joint type not handled by deserializeRagdollJoint"
            else .error "null parent_joint dereference in setLocalPose"

/-- `deserializeRagdollBone` (physics_scene.cpp:2647-2699), fuel-indexed:
read the pose bone index (negative = null bone), the transforms and the
geometry, then the child subtree (with this bone as parent), the next
subtree (with the same parent) and the bone's joint; `next->prev` and
`child->parent` are positional in the tree. -/
def deserializeRagdollBoneFuel :
    Nat → Bool → List WireItem → Except String (RagdollTree × List WireItem)
  | 0, _, _ => .error "fuel exhausted"
  | fuel + 1, hp, l =>
    match rdInt l with
    | none => .error "truncated pose_bone_idx"
    | some (idx, r0) =>
      if idx < 0 then .ok (.nil, r0)
      else
        match rdTransform r0 with
        | none => .error "truncated global pose"
        | some (tr, r1) =>
          match rdTransform r1 with
          | none => .error "truncated bind transform"
          | some (bind, r2) =>
            match rdInt r2 with
            | none => .error "truncated geometry type"
            | some (gt, r3) =>
              match (if gt = 1 then
                  match rdReal r3 with
                  | none => none
                  | some (hh, r4) =>
                    match rdReal r4 with
                    | none => none
                    | some (rad, r5) => some (GeomQ.capsule hh rad, r5)
                else if gt = 0 then
                  match rdVec3 r3 with
                  | none => none
                  | some (he, r4) => some (GeomQ.box he, r4)
                else none) with
              | none => .error "assert: unknown geometry type"
              | some (geom, r5) =>
                match deserializeRagdollBoneFuel fuel true r5 with
                | .error s => .error s
                | .ok (c, r6) =>
                  match deserializeRagdollBoneFuel fuel hp r6 with
                  | .error s => .error s
                  | .ok (n, r7) =>
                    match deserializeRagdollJoint hp r7 with
                    | .error s => .error s
                    | .ok (j, r8) =>
                      .ok (.node ⟨idx, tr, bind, geom⟩ j c n, r8)

/-- The entry point: a whole ragdoll's root tree is deserialized with a null
parent (`deserializeRagdollBone(nullptr, serializer)` in
`deserializeRagdolls`); the blob length bounds the recursion. -/
def deserializeRagdollBone (hasParent : Bool) (l : List WireItem) :
    Except String (RagdollTree × List WireItem) :=
  deserializeRagdollBoneFuel (l.length + 1) hasParent l

/-- Serialize then deserialize one ragdoll bone tree, as `serializeRagdolls`
and `deserializeRagdolls` do per ragdoll at the latest version. -/
def roundtripRagdoll (t : RagdollTree) : Except String RagdollTree :=
  match serializeRagdollBone t with
  | .error s => .error s
  | .ok items =>
    match deserializeRagdollBone false items with
    | .error s => .error s
    | .ok (t2, _) => .ok t2

/-- Nodes (null links included) of a tree — each consumes at least one blob
item and one unit of deserialization fuel. -/
def treeSize : RagdollTree → Nat
  | .nil => 1
  | .node _ _ c n => 1 + treeSize c + treeSize n

/-- The joint types `changeRagdollBoneJoint` can recreate AND both
serialization switches handle: FIXED and REVOLUTE. -/
def allowedParams : JointParams → Prop
  | .fixedJ => True
  | .revoluteJ _ _ => True
  | .distanceJ _ _ _ _ _ _ => False
  | .sphericalJ => False

/-- A bone's joint is admissible: only a bone with a parent may carry one,
and only of an allowed type. -/
def wfJoint : Bool → Option JointData → Prop
  | _, none => True
  | hp, some jd => hp = true ∧ allowedParams jd.params

/-- Serializable-and-reloadable tree: non-negative pose indices, admissible
joints, children having parents; the `Bool` says whether the subtree's
next-chain hangs under a parent. -/
def wfTree : Bool → RagdollTree → Prop
  | _, .nil => True
  | hp, .node d j c n =>
    0 ≤ d.pose_bone_idx ∧ wfJoint hp j ∧ wfTree true c ∧ wfTree hp n

theorem serializeRagdollJoint_roundtrip {hp : Bool} {j : Option JointData}
    (hwf : wfJoint hp j) :
    ∃ js, serializeRagdollJoint j = .ok js ∧
      ∀ rest, deserializeRagdollJoint hp (js ++ rest) = .ok (j, rest) := by
  cases j with
  | none => exact ⟨[.wBool false], rfl, fun rest => rfl⟩
  | some jd =>
    obtain ⟨hpt, hall⟩ := hwf
    subst hpt
    obtain ⟨params, lp0, lp1⟩ := jd
    cases params with
    | fixedJ =>
      refine ⟨_, rfl, fun rest => ?_⟩
      simp [deserializeRagdollJoint, rdBool, rdInt, rdTransform, jointTypeTag,
        eFIXED]
    | distanceJ a b c d e f => exact absurd hall (by simp [allowedParams])
    | revoluteJ lim fl =>
      refine ⟨_, rfl, fun rest => ?_⟩
      simp [deserializeRagdollJoint, rdBool, rdInt, rdTransform, rdLimit, rdU32,
        jointTypeTag, eFIXED, eREVOLUTE]
    | sphericalJ => exact absurd hall (by simp [allowedParams])

theorem serializeRagdollBone_roundtripAux {t : RagdollTree} {hp : Bool}
    (hwf : wfTree hp t) :
    ∃ items, serializeRagdollBone t = .ok items ∧ treeSize t ≤ items.length ∧
      ∀ fuel, treeSize t ≤ fuel → ∀ rest,
        deserializeRagdollBoneFuel fuel hp (items ++ rest) = .ok (t, rest) := by
  induction t generalizing hp with
  | nil =>
    refine ⟨[.wInt (-1)], rfl, by simp [treeSize], ?_⟩
    intro fuel hfuel rest
    obtain ⟨f, rfl⟩ : ∃ f, fuel = f + 1 := ⟨fuel - 1, by simp [treeSize] at hfuel; omega⟩
    simp [deserializeRagdollBoneFuel, rdInt]
  | node d j c n ihc ihn =>
    obtain ⟨hidx, hj, hc, hn⟩ := hwf
    obtain ⟨cs, hcs, hcsize, hcdes⟩ := ihc hc
    obtain ⟨ns, hns, hnsize, hndes⟩ := ihn hn
    obtain ⟨js, hjs, hjdes⟩ := serializeRagdollJoint_roundtrip hj
    obtain ⟨idx, gp, bt, geom⟩ := d
    refine ⟨[.wInt idx, .wTransform gp, .wTransform bt]
        ++ (match geom with
            | .box he => [WireItem.wInt 0, .wVec3 he]
            | .capsule hh r => [WireItem.wInt 1, .wReal hh, .wReal r])
        ++ cs ++ ns ++ js, ?_, ?_, ?_⟩
    · cases geom <;> simp [serializeRagdollBone, hcs, hns, hjs]
    · cases geom <;>
        simp_all [treeSize, List.length_append] <;> omega
    · intro fuel hfuel rest
      simp only [treeSize] at hfuel hcsize hnsize
      obtain ⟨f, rfl⟩ : ∃ f, fuel = f + 1 := ⟨fuel - 1, by omega⟩
      have hidx2 : (0 : Int) ≤ idx := hidx
      have hnlt : ¬ idx < 0 := by omega
      cases geom with
      | box he =>
        simp only [List.cons_append, List.nil_append, List.append_assoc,
          deserializeRagdollBoneFuel, rdInt, rdTransform, rdVec3, hnlt,
          if_false, ite_false]
        simp only [show ((0 : Int) = 1) = False by simp,
          show ((0 : Int) = 0) = True by simp, if_false, if_true, ite_false,
          ite_true, rdVec3]
        simp only [hcdes f (by omega) (ns ++ (js ++ rest)),
          hndes f (by omega) (js ++ rest), hjdes rest]
      | capsule hh r =>
        simp only [List.cons_append, List.nil_append, List.append_assoc,
          deserializeRagdollBoneFuel, rdInt, rdTransform, rdReal, hnlt,
          if_false, ite_false]
        simp only [show ((1 : Int) = 1) = True by simp, if_true, ite_true, rdReal]
        simp only [hcdes f (by omega) (ns ++ (js ++ rest)),
          hndes f (by omega) (js ++ rest), hjdes rest]

/-- Claim C8 as amended: for every ragdoll bone tree whose pose indices are
non-negative, whose root-level chain carries no joint and whose joints are
of the types `changeRagdollBoneJoint` can recreate (FIXED or REVOLUTE),
serializing with `serializeRagdollBone` and deserializing the produced blob
with `deserializeRagdollBone` at the latest version reproduces the identical
tree: the same child/next shape — hence the same `parent` and `prev`
back-links, which the deserializer reconstructs positionally — the same
per-bone `pose_bone_idx`, bind transforms, actor global transforms and
geometry, and the same joint presence, joint types and joint parameters. -/
theorem serializeRagdollBone_roundtrip (t : RagdollTree) (hwf : wfTree false t) :
    roundtripRagdoll t = .ok t := by
  obtain ⟨items, hser, hsize, hdes⟩ := serializeRagdollBone_roundtripAux hwf
  have hfull : deserializeRagdollBoneFuel (items.length + 1) false (items ++ [])
      = .ok (t, []) := hdes (items.length + 1) (by omega) []
  rw [List.append_nil] at hfull
  unfold roundtripRagdoll deserializeRagdollBone
  simp only [hser, hfull]

/-- A concrete identity transform for witness data. -/
def idT : PTransform := ⟨0, 0, 0, 0, 0, 0, 1⟩

/-- A concrete two-bone witness tree: a capsule root bone and a box child
bone joined by a revolute joint with limit `[-1, 1]` and flags 3. -/
def tRoundtrip : RagdollTree :=
  .node ⟨0, idT, idT, .capsule 2 1⟩ none
    (.node ⟨1, idT, idT, .box ⟨1, 2, 3⟩⟩
      (some ⟨.revoluteJ ⟨-1, 1⟩ 3, idT, idT⟩) .nil .nil)
    .nil

/-- Witness for the amended C8 at the concrete two-bone tree. -/
theorem serializeRagdollBone_roundtrip_witness :
    roundtripRagdoll tRoundtrip = .ok tRoundtrip :=
  serializeRagdollBone_roundtrip tRoundtrip
    ⟨by decide, trivial, ⟨by decide, ⟨rfl, trivial⟩, trivial, trivial⟩, trivial⟩

/-- A two-bone tree whose child joint is a DISTANCE joint: the serializer
handles it, but `changeRagdollBoneJoint` cannot create it. -/
def tDistance : RagdollTree :=
  .node ⟨0, idT, idT, .capsule 2 1⟩ none
    (.node ⟨1, idT, idT, .box ⟨1, 2, 3⟩⟩
      (some ⟨.distanceJ 0 1 2 3 4 5, idT, idT⟩) .nil .nil)
    .nil

/-- Counterexample to claim C8 as stated: at `tDistance` the serializer
produces a blob (`serializeRagdollJoint` has a DISTANCE case), but
deserializing it does not reproduce the tree — `changeRagdollBoneJoint`'s
switch has no DISTANCE case, leaves `parent_joint` null, and the following
`setLocalPose` dereferences null (modelled as the error below). -/
theorem roundtrip_fails_on_distance_joint :
    (serializeRagdollBone tDistance).toOption.isSome = true ∧
      roundtripRagdoll tDistance
        = .error "null parent_joint dereference in setLocalPose" := by
  exact ⟨rfl, rfl⟩

/-! ### The inverse-kinematics solver
(`AnimationSceneImpl::updateIK`, animation_scene.cpp:956-1020), idealized
over exact real arithmetic: `Vec3` becomes Euclidean ℝ³, `length()` the
Euclidean norm. The solver state is the list of chain bone positions. -/

noncomputable section

/-- `Vec3` with the Euclidean length. -/
abbrev V3 : Type := EuclideanSpace ℝ (Fin 3)

/-- `Vec3::normalized()`; the zero vector maps to zero. -/
def normalizedV (v : V3) : V3 := ‖v‖⁻¹ • v

/-- The repositioning step both passes share:
`cur + len * (old - cur).normalized()` — place the next joint at distance
`len` from `cur` along the direction toward its old position. -/
def stepTo (cur old : V3) (len : ℝ) : V3 :=
  cur + len • normalizedV (old - cur)

/-- One pass of the two-pass relaxation: starting from the fixed position
`cur`, walk the (old position, segment length) pairs, repositioning each
joint in turn; returns the new positions starting with `cur`. -/
def passAux : V3 → List (V3 × ℝ) → List V3
  | cur, [] => [cur]
  | cur, (old, len) :: rest => cur :: passAux (stepTo cur old len) rest

/-- `len[i] = (pos[i+1] - pos[i]).length()`: the fixed segment lengths of
the chain, computed once from the original pose. -/
def segLens : List V3 → List ℝ
  | a :: b :: rest => ‖b - a‖ :: segLens (b :: rest)
  | _ => []

/-- One iteration of the solver loop (animation_scene.cpp:987-1004): set the
end effector to the target, run the backward pass from the effector toward
the root (the root is NOT re-anchored), then the forward pass from the moved
root toward the effector. -/
def ikIteration (lens : List ℝ) (target : V3) (ps : List V3) : List V3 :=
  let back := (passAux target ((ps.dropLast.reverse).zip lens.reverse)).reverse
  match back with
  | [] => []
  | b0 :: btail => passAux b0 (btail.zip lens)

/-- `max_iterations` iterations of `ikIteration`. -/
def ikIterate (lens : List ℝ) (target : V3) : Nat → List V3 → List V3
  | 0, ps => ps
  | k + 1, ps => ikIterate lens target k (ikIteration lens target ps)

/-- `AnimationSceneImpl::updateIK` (animation_scene.cpp:956-1020) on the
resolved chain positions: compute the segment lengths and their sum, clamp
the target onto the sphere of radius `len_sum` about the chain root when
`len_sum^2 < |target - root|^2`, then iterate; returns the final positions,
which the epilogue writes back into the pose (the last one is the solved
end-effector position). -/
def updateIK (ps : List V3) (target : V3) (max_iterations : Nat) : List V3 :=
  match ps with
  | [] => []
  | p0 :: _ =>
    let lens := segLens ps
    let len_sum := lens.sum
    let to_target := target - p0
    let target2 :=
      if len_sum * len_sum < ‖to_target‖ * ‖to_target‖ then
        p0 + len_sum • normalizedV to_target
      else target
    ikIterate lens target2 max_iterations ps

end

theorem stepTo_eq_old {cur old : V3} {len : ℝ} (h : ‖old - cur‖ = len) :
    stepTo cur old len = old := by
  rcases eq_or_ne old cur with rfl | hne
  · have h0 : len = 0 := by simpa using h.symm
    simp [stepTo, h0]
  · have hd : old - cur ≠ 0 := sub_ne_zero.mpr hne
    have hn : ‖old - cur‖ ≠ 0 := norm_ne_zero_iff.mpr hd
    rw [stepTo, normalizedV, smul_smul, ← h, mul_inv_cancel₀ hn, one_smul]
    abel

theorem norm_stepTo_sub_eq {cur old : V3} {len : ℝ} (hne : old ≠ cur) (h0 : 0 ≤ len) :
    ‖stepTo cur old len - cur‖ = len := by
  have hd : old - cur ≠ 0 := sub_ne_zero.mpr hne
  have hn : ‖old - cur‖ ≠ 0 := norm_ne_zero_iff.mpr hd
  rw [stepTo, add_sub_cancel_left, normalizedV, norm_smul, norm_smul, norm_inv,
    norm_norm, inv_mul_cancel₀ hn, mul_one, Real.norm_eq_abs, abs_of_nonneg h0]

theorem passAux_head : ∀ (cur : V3) (l : List (V3 × ℝ)), ∃ t, passAux cur l = cur :: t
  | _, [] => ⟨[], rfl⟩
  | _, (_, _) :: _ => ⟨_, rfl⟩

theorem passAux_id : ∀ (tail : List V3) (lens : List ℝ) (cur : V3),
    tail.length = lens.length → segLens (cur :: tail) = lens →
    passAux cur (tail.zip lens) = cur :: tail
  | [], [], _, _, _ => rfl
  | [], _ :: _, _, h, _ => by simp at h
  | _ :: _, [], _, h, _ => by simp at h
  | b :: t, len :: ls, cur, hlen, htaut => by
    have h1 : ‖b - cur‖ = len ∧ segLens (b :: t) = ls := by
      simpa [segLens] using htaut
    simp only [List.zip_cons_cons, passAux, stepTo_eq_old h1.1]
    exact congrArg (List.cons cur) (passAux_id t ls b (by simpa using hlen) h1.2)

theorem segLens_snoc : ∀ (u : List V3) (x a : V3),
    segLens (u ++ [x, a]) = segLens (u ++ [x]) ++ [‖a - x‖]
  | [], x, a => by simp [segLens]
  | [c], x, a => by simp [segLens]
  | c :: d :: u, x, a => by
    have ih := segLens_snoc (d :: u) x a
    simp only [List.cons_append] at ih ⊢
    simp [segLens, ih]

theorem segLens_reverse : ∀ s : List V3, segLens s.reverse = (segLens s).reverse
  | [] => rfl
  | [_] => rfl
  | a :: b :: t => by
    have ih := segLens_reverse (b :: t)
    have h1 : (a :: b :: t).reverse = t.reverse ++ [b, a] := by simp
    have h2 : t.reverse ++ [b] = (b :: t).reverse := by simp
    rw [h1, segLens_snoc, h2, ih]
    simp [segLens, norm_sub_rev]

theorem segLens_length : ∀ s : List V3, (segLens s).length = s.length - 1
  | [] => rfl
  | [_] => rfl
  | a :: b :: t => by
    simp only [segLens, List.length_cons, segLens_length (b :: t)]
    omega

theorem chain_bound : ∀ (s : List V3) (x y : V3),
    s.head? = some x → s.getLast? = some y → ‖y - x‖ ≤ (segLens s).sum
  | [], _, _, hx, _ => by simp at hx
  | [a], x, y, hx, hy => by
    simp only [List.head?_cons, Option.some.injEq] at hx
    simp only [List.getLast?_singleton, Option.some.injEq] at hy
    subst hx; subst hy
    simp [segLens]
  | a :: b :: t, x, y, hx, hy => by
    simp only [List.head?_cons, Option.some.injEq] at hx
    subst hx
    have hy' : (b :: t).getLast? = some y := by
      simpa [List.getLast?_cons_cons] using hy
    have ih := chain_bound (b :: t) b y rfl hy'
    have htri : ‖y - a‖ ≤ ‖y - b‖ + ‖b - a‖ := norm_sub_le_norm_sub_add_norm_sub y b a
    simp only [segLens, List.sum_cons]
    linarith

/-- The invariant of the first backward pass: each old joint position lies at
least one segment closer to the chain root than the bound `B` the walking
position keeps, so the walk never lands on the old position it aims at. -/
def descend (p0 : V3) : ℝ → List (V3 × ℝ) → Prop
  | _, [] => True
  | B, (old, len) :: rest => 0 ≤ len ∧ ‖old - p0‖ + len ≤ B ∧ descend p0 (B - len) rest

theorem descend_chain_rev : ∀ (r : List V3) (p0 : V3), r.getLast? = some p0 →
    descend p0 (segLens r).sum (r.tail.zip (segLens r))
  | [], _, h => by simp at h
  | [a], p0, _ => by simp [segLens, descend]
  | a :: b :: rest, p0, h => by
    have hlast : (b :: rest).getLast? = some p0 := by
      simpa [List.getLast?_cons_cons] using h
    have ih := descend_chain_rev (b :: rest) p0 hlast
    have hb : ‖b - p0‖ ≤ (segLens (b :: rest)).sum := by
      have hc := chain_bound (b :: rest) b p0 rfl hlast
      calc ‖b - p0‖ = ‖p0 - b‖ := norm_sub_rev b p0
        _ ≤ (segLens (b :: rest)).sum := hc
    simp only [List.tail_cons, segLens, List.zip_cons_cons, List.sum_cons, descend]
    refine ⟨norm_nonneg _, by linarith, ?_⟩
    have harith : ‖b - a‖ + (segLens (b :: rest)).sum - ‖b - a‖
        = (segLens (b :: rest)).sum := by ring
    rw [harith]
    exact ih

theorem passAux_taut_out (p0 : V3) : ∀ (l : List (V3 × ℝ)) (cur : V3) (B : ℝ),
    B ≤ ‖cur - p0‖ → descend p0 B l →
    segLens (passAux cur l) = l.map Prod.snd
  | [], cur, B, _, _ => by simp [passAux, segLens]
  | (old, len) :: rest, cur, B, hcur, hd => by
    obtain ⟨h0, hb, hrest⟩ := hd
    have hstep : ‖stepTo cur old len - cur‖ = len := by
      rcases eq_or_ne old cur with rfl | hne
      · have hle : len ≤ 0 := by linarith
        have hlen0 : len = 0 := le_antisymm hle h0
        simp [stepTo, hlen0]
      · exact norm_stepTo_sub_eq hne h0
    have hbound : B - len ≤ ‖stepTo cur old len - p0‖ := by
      have htri : ‖cur - p0‖ ≤ ‖cur - stepTo cur old len‖ + ‖stepTo cur old len - p0‖ :=
        norm_sub_le_norm_sub_add_norm_sub cur (stepTo cur old len) p0
      have hsym : ‖cur - stepTo cur old len‖ = len := by
        rw [norm_sub_rev]; exact hstep
      linarith
    have ih := passAux_taut_out p0 rest (stepTo cur old len) (B - len) hbound hrest
    obtain ⟨t, ht⟩ := passAux_head (stepTo cur old len) rest
    rw [ht] at ih
    simp only [passAux, ht, List.map_cons, segLens, hstep]
    rw [ih]

theorem passAux_length : ∀ (cur : V3) (l : List (V3 × ℝ)),
    (passAux cur l).length = l.length + 1
  | _, [] => rfl
  | cur, (old, len) :: rest => by
    simp [passAux, passAux_length (stepTo cur old len) rest]

theorem segLens_sum_nonneg : ∀ s : List V3, 0 ≤ (segLens s).sum
  | [] => le_refl 0
  | [_] => le_refl 0
  | a :: b :: t => by
    simp only [segLens, List.sum_cons]
    have := segLens_sum_nonneg (b :: t)
    positivity

/-- A state with the declared segment lengths and the target already at its
end is a fixed point of one solver iteration: the backward and the forward
pass both reposition every joint exactly where it stands. -/
theorem ikIteration_fix (lens : List ℝ) (t' s0 : V3) (stail : List V3)
    (hlen : (s0 :: stail).length = lens.length + 1)
    (htaut : segLens (s0 :: stail) = lens)
    (hlast : (s0 :: stail).getLast? = some t') :
    ikIteration lens t' (s0 :: stail) = s0 :: stail := by
  have hs : (s0 :: stail).dropLast ++ [t'] = s0 :: stail :=
    List.dropLast_append_getLast? t' hlast
  have hrev : (s0 :: stail).reverse = t' :: (s0 :: stail).dropLast.reverse := by
    conv_lhs => rw [← hs]
    simp
  have hlen2 : (s0 :: stail).dropLast.reverse.length = lens.reverse.length := by
    simp only [List.length_reverse, List.length_dropLast, List.length_cons]
    simp only [List.length_cons] at hlen
    omega
  have htaut2 : segLens (t' :: (s0 :: stail).dropLast.reverse) = lens.reverse := by
    rw [← hrev, segLens_reverse, htaut]
  have hback : passAux t' (((s0 :: stail).dropLast.reverse).zip lens.reverse)
      = t' :: (s0 :: stail).dropLast.reverse :=
    passAux_id _ _ _ hlen2 htaut2
  have hfwd : passAux s0 (stail.zip lens) = s0 :: stail :=
    passAux_id stail lens s0 (by simpa using hlen) htaut
  simp only [ikIteration, hback, ← hrev, List.reverse_reverse]
  exact hfwd

/-- The first iteration on an unreachable (clamped) target: the backward
pass pulls the whole chain taut toward the target — each step aims at an
old joint position strictly closer to the root than the walking position,
so every repositioning lands at the exact segment length — and the forward
pass then moves nothing. The resulting chain has the declared segment
lengths and its end effector sits exactly on the target. -/
theorem ikIteration_first (ps : List V3) (p0 t' : V3)
    (hhead : ps.head? = some p0) (hnorm : (segLens ps).sum ≤ ‖t' - p0‖) :
    segLens (ikIteration (segLens ps) t' ps) = segLens ps ∧
      (ikIteration (segLens ps) t' ps).getLast? = some t' ∧
      (ikIteration (segLens ps) t' ps).length = ps.length := by
  have hne : ps ≠ [] := by
    intro h; rw [h] at hhead; simp at hhead
  have hpair : ps.dropLast.reverse = ps.reverse.tail :=
    (List.tail_reverse_eq_reverse_dropLast ps).symm
  have hsegrev : segLens ps.reverse = (segLens ps).reverse := segLens_reverse ps
  have hlastrev : ps.reverse.getLast? = some p0 := by
    rw [List.getLast?_reverse]; exact hhead
  have hdesc : descend p0 ((segLens ps).sum)
      ((ps.dropLast.reverse).zip ((segLens ps).reverse)) := by
    have h := descend_chain_rev ps.reverse p0 hlastrev
    rw [hsegrev, List.sum_reverse, ← hpair] at h
    exact h
  have hout : segLens (passAux t' ((ps.dropLast.reverse).zip ((segLens ps).reverse)))
      = (segLens ps).reverse := by
    have h := passAux_taut_out p0 ((ps.dropLast.reverse).zip ((segLens ps).reverse))
      t' ((segLens ps).sum) hnorm hdesc
    rw [h]
    apply List.map_snd_zip
    rw [List.length_reverse, List.length_reverse, List.length_dropLast,
      segLens_length]
  obtain ⟨bt, hbt⟩ := passAux_head t' ((ps.dropLast.reverse).zip ((segLens ps).reverse))
  set back0 := passAux t' ((ps.dropLast.reverse).zip ((segLens ps).reverse)) with hback0
  have hlenb : back0.length = ps.length := by
    have h1 : 1 ≤ ps.length := List.length_pos.mpr hne
    rw [hback0, passAux_length, List.length_zip, List.length_reverse,
      List.length_reverse, List.length_dropLast, segLens_length]
    omega
  have hsegback : segLens back0.reverse = segLens ps := by
    rw [segLens_reverse, hout, List.reverse_reverse]
  have hlastback : back0.reverse.getLast? = some t' := by
    rw [List.getLast?_reverse, hbt]
    rfl
  have hlenback : back0.reverse.length = ps.length := by
    rw [List.length_reverse]; exact hlenb
  obtain ⟨b0, btail, hb0⟩ : ∃ b0 btail, back0.reverse = b0 :: btail := by
    have hne2 : back0.reverse ≠ [] := by
      intro h
      have hlen0 := congrArg List.length h
      rw [hlenback] at hlen0
      simp only [List.length_nil] at hlen0
      exact hne (List.length_eq_zero.mp hlen0)
    exact ⟨back0.reverse.head hne2, back0.reverse.tail,
      (List.head_cons_tail _ hne2).symm⟩
  have hfwd : passAux b0 (btail.zip (segLens ps)) = b0 :: btail := by
    apply passAux_id
    · have := congrArg List.length hb0
      rw [hlenback] at this
      simp only [List.length_cons] at this
      rw [segLens_length]
      omega
    · rw [← hb0, hsegback]
  have hresult : ikIteration (segLens ps) t' ps = b0 :: btail := by
    simp only [ikIteration, ← hback0, hb0]
    exact hfwd
  rw [hresult, ← hb0, hsegback, hlastback, hlenback]
  exact ⟨rfl, rfl, rfl⟩

theorem ikIterate_fixed (lens : List ℝ) (t' : V3) :
    ∀ (k : Nat) (s : List V3), s.length = lens.length + 1 →
      segLens s = lens → s.getLast? = some t' →
      ikIterate lens t' k s = s := by
  intro k
  induction k with
  | zero => intro s _ _ _; rfl
  | succ j ih =>
    intro s hlen htaut hlast
    obtain ⟨s0, stail, rfl⟩ : ∃ s0 stail, s = s0 :: stail := by
      cases s with
      | nil => simp at hlen
      | cons a t => exact ⟨a, t, rfl⟩
    have hfix := ikIteration_fix lens t' s0 stail hlen htaut hlast
    simp only [ikIterate, hfix]
    exact ih _ hlen htaut hlast

/-- Claim C9: for an IK chain of at least two resolved bones and at least
one iteration, when the target's distance from the chain root exceeds the
sum of the segment lengths, the solver clamps the target onto the sphere of
that radius around the root — the clamped target lies at distance `len_sum`
from the root, along the original root-to-target direction (a nonnegative
multiple of it) — and the solved end-effector position equals that clamped
target, not the original target. Idealized over exact real arithmetic. -/
theorem updateIK_unreachable_clamped (ps : List V3) (p0 target : V3) (iters : Nat)
    (hhead : ps.head? = some p0) (hlen : 2 ≤ ps.length) (hit : 1 ≤ iters)
    (hfar : (segLens ps).sum < ‖target - p0‖) :
    (updateIK ps target iters).getLast?
        = some (p0 + (segLens ps).sum • normalizedV (target - p0)) ∧
      ‖p0 + (segLens ps).sum • normalizedV (target - p0) - p0‖ = (segLens ps).sum ∧
      p0 + (segLens ps).sum • normalizedV (target - p0) - p0
        = ((segLens ps).sum / ‖target - p0‖) • (target - p0) ∧
      p0 + (segLens ps).sum • normalizedV (target - p0) ≠ target := by
  obtain ⟨ptail, rfl⟩ : ∃ t, ps = p0 :: t := by
    cases ps with
    | nil => simp at hhead
    | cons a t =>
      simp only [List.head?_cons, Option.some.injEq] at hhead
      exact ⟨t, by rw [hhead]⟩
  set L := (segLens (p0 :: ptail)).sum with hL
  set d := target - p0 with hdd
  have hL0 : 0 ≤ L := segLens_sum_nonneg _
  have hdpos : 0 < ‖d‖ := lt_of_le_of_lt hL0 hfar
  have hnd : ‖normalizedV d‖ = 1 := by
    rw [normalizedV, norm_smul, norm_inv, norm_norm,
      inv_mul_cancel₀ (ne_of_gt hdpos)]
  have ht2sub : p0 + L • normalizedV d - p0 = L • normalizedV d :=
    add_sub_cancel_left _ _
  have ht2norm : ‖p0 + L • normalizedV d - p0‖ = L := by
    rw [ht2sub, norm_smul, hnd, mul_one, Real.norm_eq_abs, abs_of_nonneg hL0]
  have hne_t : p0 + L • normalizedV d ≠ target := by
    intro h
    have heq : ‖p0 + L • normalizedV d - p0‖ = ‖d‖ := by rw [h]
    rw [ht2norm] at heq
    rw [heq] at hfar
    exact lt_irrefl _ hfar
  have hdir : p0 + L • normalizedV d - p0 = (L / ‖d‖) • d := by
    rw [ht2sub, normalizedV, smul_smul, div_eq_mul_inv]
  have hcond : L * L < ‖d‖ * ‖d‖ := mul_self_lt_mul_self hL0 hfar
  have hopen : updateIK (p0 :: ptail) target iters
      = ikIterate (segLens (p0 :: ptail)) (p0 + L • normalizedV d) iters
          (p0 :: ptail) := by
    simp only [updateIK]
    rw [← hL, ← hdd, if_pos hcond]
  obtain ⟨j, rfl⟩ : ∃ j, iters = j + 1 := ⟨iters - 1, by omega⟩
  obtain ⟨hseg1, hlast1, hlen1⟩ :=
    ikIteration_first (p0 :: ptail) p0 (p0 + L • normalizedV d) rfl
      (by rw [ht2norm, ← hL])
  have hrest := ikIterate_fixed (segLens (p0 :: ptail)) (p0 + L • normalizedV d) j
    (ikIteration (segLens (p0 :: ptail)) (p0 + L • normalizedV d) (p0 :: ptail))
    (by rw [hlen1, segLens_length]; simp) hseg1 hlast1
  refine ⟨?_, ht2norm, hdir, hne_t⟩
  rw [hopen]
  simp only [ikIterate]
  rw [hrest, hlast1]

noncomputable section

/-- Concrete two-bone chain for the C9 witness: the root at the origin, the
second bone one unit along the x axis. -/
def ikChainW : List V3 := [0, EuclideanSpace.single 0 1]

/-- Concrete unreachable target: three units along the x axis. -/
def ikTargetW : V3 := EuclideanSpace.single 0 3

end

theorem ikChainW_lens : segLens ikChainW = [1] := by
  simp [ikChainW, segLens, EuclideanSpace.norm_single]

theorem ikTargetW_norm : ‖ikTargetW - (0 : V3)‖ = 3 := by
  simp [ikTargetW, EuclideanSpace.norm_single]

/-- Witness for C9 at the concrete chain: one iteration on the unreachable
target three units out pins the end effector on the unit sphere about the
root, at the clamped target. -/
theorem updateIK_unreachable_clamped_witness :
    (updateIK ikChainW ikTargetW 1).getLast?
        = some ((0 : V3) + (segLens ikChainW).sum • normalizedV (ikTargetW - 0)) ∧
      ‖(0 : V3) + (segLens ikChainW).sum • normalizedV (ikTargetW - 0) - 0‖
        = (segLens ikChainW).sum ∧
      (0 : V3) + (segLens ikChainW).sum • normalizedV (ikTargetW - 0) - 0
        = ((segLens ikChainW).sum / ‖ikTargetW - 0‖) • (ikTargetW - 0) ∧
      (0 : V3) + (segLens ikChainW).sum • normalizedV (ikTargetW - 0) ≠ ikTargetW :=
  updateIK_unreachable_clamped ikChainW 0 ikTargetW 1 rfl
    (by simp [ikChainW]) le_rfl
    (by rw [ikChainW_lens, ikTargetW_norm]; norm_num)

end Lumix
